import Mathlib

/-!
Verification of the LIME-explanation demo scripts.

The repository consists of two Python scripts:

* `get_explanations.py` — loads a persisted classifier and test arrays,
  selects one positive-class ("severe") sample via `find_severe_samples`,
  runs the classifier, and renders/saves a LIME explanation figure;
  a top-level `try/except` in `main` handles `FileNotFoundError`,
  `ValueError` and generic `Exception`.
* `test_explanations.py` — `create_mock_data` fabricates a 100-sample
  mock dataset (labels in {0,1}, index 0 forced to label 1).

This file gives a shallow embedding of those functions and proves the
specification claims about them.  Labels are embedded as `List Int`,
probabilities as `ℚ`, and the effectful control flow of `main` as a pure
function over an environment recording which artifacts exist and which
library calls succeed, returning the outcome of the `try` block together
with the list of files written.
-/

/-- Python exception taxonomy relevant to the handlers in `main`:
`FileNotFoundError`, `ValueError`, and any other `Exception`. -/
inductive PyError where
  | fileNotFound : String → PyError
  | valueError : String → PyError
  | other : String → PyError
deriving DecidableEq, Repr

/-- The message of `raise ValueError(...)` in `find_severe_samples`. -/
def noSevereMsg : String := "No severe class samples found in the test data"

/-- `np.where(y_test == 1)[0]` starting from index offset `i`: the ascending
list of positions (offset by `i`) whose entry equals 1. -/
def whereEqOne : List Int → Nat → List Nat
  | [], _ => []
  | a :: rest, i =>
    if a = 1 then i :: whereEqOne rest (i + 1) else whereEqOne rest (i + 1)

/-- `severe_indices = np.where(y_test == 1)[0]` (line 11 of
`get_explanations.py`). -/
def severeIndices (y_test : List Int) : List Nat := whereEqOne y_test 0

/-- `find_severe_samples(y_test, num_samples)` (lines 9–14 of
`get_explanations.py`): all indices with label 1, in original order; raises
`ValueError` when there are none, otherwise truncates to `num_samples`. -/
def find_severe_samples (y_test : List Int) (num_samples : Nat) :
    Except PyError (List Nat) :=
  let severe_indices := severeIndices y_test
  if severe_indices.length = 0 then
    Except.error (PyError.valueError noSevereMsg)
  else
    Except.ok (severe_indices.take num_samples)

/-- Round-half-to-even to an integer, the rounding mode of `np.round`. -/
def roundHalfEven (q : ℚ) : ℤ :=
  let n := ⌊q⌋
  let frac := q - n
  if frac < 1 / 2 then n
  else if 1 / 2 < frac then n + 1
  else if n % 2 = 0 then n else n + 1

/-- `np.round(x, decimals)`: round half-to-even at the given number of
decimal places. -/
def npRound (x : ℚ) (decimals : Nat) : ℚ :=
  (roundHalfEven (x * 10 ^ decimals) : ℚ) / 10 ^ decimals

/-- `np.max` over a list of rationals (0 on the empty list, which the code
never reaches: `np.max([])` raises and the callers guard non-emptiness). -/
def npMax : List ℚ → ℚ
  | [] => 0
  | a :: rest => rest.foldl max a

/-- Tail of `np.argmax`: scan the remaining entries, keeping the index of
the first maximal entry seen so far. -/
def npArgmaxAux : List ℚ → Nat → Nat → ℚ → Nat
  | [], _, best, _ => best
  | a :: rest, i, best, bestVal =>
    if bestVal < a then npArgmaxAux rest (i + 1) i a
    else npArgmaxAux rest (i + 1) best bestVal

/-- `np.argmax`: index of the first maximal entry (0 on the empty list,
which the code never reaches: `np.argmax([])` raises and the callers guard
non-emptiness). -/
def npArgmax : List ℚ → Nat
  | [] => 0
  | a :: rest => npArgmaxAux rest 1 0 a

/-- The displayed confidence `np.round(np.max(prediction), 2)*100.0`
(line 48 and line 71 of `get_explanations.py`): the maximum probability is
rounded to 2 decimal places first and scaled by 100 afterwards. -/
def displayedConfidence (prediction : List ℚ) : ℚ :=
  npRound (npMax prediction) 2 * 100

/-- The alternative scale-then-round computation `np.round(p*100, 2)`,
which the code does NOT use; defined only to be compared with
`displayedConfidence`. -/
def scaleThenRound (p : ℚ) : ℚ :=
  npRound (p * 100) 2

/-- An image is abstracted to an opaque token: the claims only concern
control flow, lengths and indexing, never pixel values. -/
abbrev Image := Nat

/-- `classes` (line 7 of `get_explanations.py`). -/
def classes : List String :=
  ["no_pharyngeal_residue_in_valleculae", "severe_pharyngeal_residue_in_valleculae"]

/-- Python list indexing `l[i]` with an integer index: negative indices
count from the end; out-of-range raises `IndexError`. -/
def pyListGet {α : Type} (l : List α) (i : Int) : Option α :=
  if 0 ≤ i then l.get? i.toNat
  else if 0 ≤ i + l.length then l.get? (i + l.length).toNat else none

/-- Message of the `IndexError` raised by `severe_indices[0]` on an empty
array. -/
def emptyIndexMsg : String := "index 0 is out of bounds for axis 0 with size 0"

/-- Message of the `IndexError` raised by an out-of-range array access. -/
def indexOobMsg : String := "index out of range"

/-- Message of the `IndexError` raised by an out-of-range Python list
access such as `classes[...]`. -/
def listIndexMsg : String := "list index out of range"

/-- Message of the `ValueError` raised by `np.argmax` / `np.max` on an
empty array. -/
def argmaxEmptyMsg : String := "attempt to get argmax of an empty sequence"

/-- Path of the model artifact (line 56). -/
def modelPath : String := "trained_model.h5"

/-- Path of the image-array artifact (line 57). -/
def xPath : String := "./data/x_test.npy"

/-- Path of the label-array artifact (line 58). -/
def yPath : String := "./data/y_test.npy"

/-- Default output path of the rendered figure (line 16 / line 75). -/
def limeOutputPath : String := "lime_output.png"

/-- Environment of one run of `main`: which artifact files exist and with
what contents, and whether the two external library calls (classifier
inference, LIME explanation) succeed or raise. -/
structure Env where
  modelPresent : Bool
  xFile : Option (List Image)
  yFile : Option (List Int)
  predictResult : Except String (List ℚ)
  explainResult : Except String Unit

/-- Lines 60–61 of `main`:
`severe_indices = find_severe_samples(y_test, num_samples=1)` followed by
`sample_idx = severe_indices[0]`. -/
def selectSampleIndex (y_test : List Int) : Except PyError Nat :=
  match find_severe_samples y_test 1 with
  | Except.error e => Except.error e
  | Except.ok severe_indices =>
    match severe_indices.get? 0 with
    | none => Except.error (PyError.other emptyIndexMsg)
    | some i => Except.ok i

/-- `generate_lime_explanation` (lines 16–51): run the explainer (an
external call that may raise), caption the figure with
`classes[np.argmax(prediction)]` and the displayed confidence, and only
then `plt.savefig(save_path)`.  Returns the list of files written. -/
def generate_lime_explanation (env : Env) (prediction : List ℚ)
    (save_path : String) : Except PyError (List String) :=
  match env.explainResult with
  | Except.error m => Except.error (PyError.other m)
  | Except.ok _ =>
    match classes.get? (npArgmax prediction) with
    | none => Except.error (PyError.other listIndexMsg)
    | some _ => Except.ok [save_path]

/-- The body of the `try` block of `main` (lines 55–77), sequenced exactly as in
the source; produces either the first raised exception or unit, together
with the list of files written during the run. -/
def runMain (env : Env) : Except PyError Unit × List String :=
  if env.modelPresent = false then
    (Except.error (PyError.fileNotFound modelPath), [])
  else
    match env.xFile with
    | none => (Except.error (PyError.fileNotFound xPath), [])
    | some x_test =>
      match env.yFile with
      | none => (Except.error (PyError.fileNotFound yPath), [])
      | some y_test =>
        match selectSampleIndex y_test with
        | Except.error e => (Except.error e, [])
        | Except.ok sample_idx =>
          match x_test.get? sample_idx with
          | none => (Except.error (PyError.other indexOobMsg), [])
          | some _sample =>
            match env.predictResult with
            | Except.error m => (Except.error (PyError.other m), [])
            | Except.ok prediction =>
              match y_test.get? sample_idx with
              | none => (Except.error (PyError.other indexOobMsg), [])
              | some label =>
                match pyListGet classes label with
                | none => (Except.error (PyError.other listIndexMsg), [])
                | some _actual =>
                  if prediction.length = 0 then
                    (Except.error (PyError.valueError argmaxEmptyMsg), [])
                  else
                    match classes.get? (npArgmax prediction) with
                    | none => (Except.error (PyError.other listIndexMsg), [])
                    | some _predicted =>
                      match generate_lime_explanation env prediction
                          limeOutputPath with
                      | Except.error e => (Except.error e, [])
                      | Except.ok written => (Except.ok (), written)

/-- Header of the `except FileNotFoundError` message (line 80). -/
def fnfHeader : String := "Error: Required file not found - "

/-- Header of the `except ValueError` message (line 83). -/
def errHeader : String := "Error: "

/-- Header of the `except Exception` message (line 85). -/
def unexpectedHeader : String := "Unexpected error: "

/-- Outcome of a whole run of `main`: either the `try` block finished, or
an exception was caught by one of the three handlers and printed, or an
exception escaped `main` (which the handlers make impossible). -/
inductive RunOutcome where
  | success : RunOutcome
  | handled : String → RunOutcome
  | propagated : PyError → RunOutcome
deriving DecidableEq, Repr

/-- `main` (lines 53–85): the `try` body wrapped in the three `except`
clauses, each of which prints a message and falls through to a normal
return.  Returns the outcome together with the list of files written. -/
def mainRun (env : Env) : RunOutcome × List String :=
  match runMain env with
  | (Except.ok _, written) => (RunOutcome.success, written)
  | (Except.error (PyError.fileNotFound m), written) =>
    (RunOutcome.handled (fnfHeader ++ m), written)
  | (Except.error (PyError.valueError m), written) =>
    (RunOutcome.handled (errHeader ++ m), written)
  | (Except.error (PyError.other m), written) =>
    (RunOutcome.handled (unexpectedHeader ++ m), written)

/-- `create_mock_data` (lines 7–15 of `test_explanations.py`):
`x_test = np.random.rand(100, 64, 64, 3)`,
`y_test = np.random.choice([0, 1], size=100, p=[0.7, 0.3])`,
`y_test[0] = 1`.  The two random draws are abstracted as oracle functions;
`np.random.choice([0, 1], ...)` only ever produces elements of the choice
list, hence the label oracle has codomain `Fin 2`. -/
def create_mock_data (randImage : Nat → Image) (randLabel : Nat → Fin 2) :
    List Image × List Int :=
  let x_test := (List.range 100).map randImage
  let y_test := (List.range 100).map (fun i => ((randLabel i : Nat) : Int))
  (x_test, y_test.set 0 1)

/-- The missing-artifact scenario of §8 of the spec: the model file does
not exist. -/
def envMissingModel : Env := ⟨false, none, none, Except.ok [], Except.ok ()⟩

/-- A fully successful run: one image, one positive label, a well-formed
2-class prediction, and a succeeding explainer. -/
def envGood : Env := ⟨true, some [0], some [1], Except.ok [1, 0], Except.ok ()⟩


/-! ### Properties of `whereEqOne` / `severeIndices` -/

theorem mem_whereEqOne (y : List Int) :
    ∀ (i j : Nat), j ∈ whereEqOne y i ↔ ∃ k, y.get? k = some 1 ∧ j = i + k := by
  induction y with
  | nil => intro i j; simp [whereEqOne]
  | cons a rest ih =>
    intro i j
    by_cases ha : a = 1
    · simp only [whereEqOne, if_pos ha, List.mem_cons, ih (i + 1) j]
      constructor
      · rintro (rfl | ⟨k, hk, rfl⟩)
        · exact ⟨0, by simp [ha], by omega⟩
        · exact ⟨k + 1, by simpa using hk, by omega⟩
      · rintro ⟨k, hk, rfl⟩
        cases k with
        | zero => left; omega
        | succ k => right; exact ⟨k, by simpa using hk, by omega⟩
    · simp only [whereEqOne, if_neg ha, ih (i + 1) j]
      constructor
      · rintro ⟨k, hk, rfl⟩
        exact ⟨k + 1, by simpa using hk, by omega⟩
      · rintro ⟨k, hk, rfl⟩
        cases k with
        | zero =>
          exfalso
          apply ha
          simpa using hk
        | succ k => exact ⟨k, by simpa using hk, by omega⟩

theorem le_of_mem_whereEqOne {y : List Int} {i j : Nat}
    (h : j ∈ whereEqOne y i) : i ≤ j := by
  obtain ⟨k, -, rfl⟩ := (mem_whereEqOne y i j).1 h
  omega

theorem whereEqOne_sorted (y : List Int) :
    ∀ i : Nat, List.Sorted (· < ·) (whereEqOne y i) := by
  induction y with
  | nil => intro i; simp [whereEqOne]
  | cons a rest ih =>
    intro i
    by_cases ha : a = 1
    · simp only [whereEqOne, if_pos ha, List.sorted_cons]
      refine ⟨fun j hj => ?_, ih (i + 1)⟩
      have := le_of_mem_whereEqOne hj
      omega
    · simpa only [whereEqOne, if_neg ha] using ih (i + 1)

theorem whereEqOne_length (y : List Int) :
    ∀ i : Nat, (whereEqOne y i).length = y.countP (fun a => a == 1) := by
  induction y with
  | nil => intro i; simp [whereEqOne]
  | cons a rest ih =>
    intro i
    by_cases ha : a = 1
    · simp [whereEqOne, if_pos ha, List.countP_cons, ha, ih (i + 1)]
    · simp [whereEqOne, if_neg ha, List.countP_cons, ha, ih (i + 1)]

theorem whereEqOne_eq_nil_iff (y : List Int) :
    ∀ i : Nat, whereEqOne y i = [] ↔ (1 : Int) ∉ y := by
  induction y with
  | nil => intro i; simp [whereEqOne]
  | cons a rest ih =>
    intro i
    by_cases ha : a = 1
    · simp [whereEqOne, if_pos ha, ha]
    · simp only [whereEqOne, if_neg ha, ih (i + 1), List.mem_cons]
      constructor
      · intro h
        rintro (h1 | h1)
        · exact ha h1.symm
        · exact h h1
      · intro h h1
        exact h (Or.inr h1)

theorem mem_severeIndices (y : List Int) (j : Nat) :
    j ∈ severeIndices y ↔ y.get? j = some 1 := by
  rw [severeIndices, mem_whereEqOne y 0 j]
  constructor
  · rintro ⟨k, hk, rfl⟩; simpa using hk
  · intro h; exact ⟨j, h, by omega⟩

theorem severeIndices_sorted (y : List Int) :
    List.Sorted (· < ·) (severeIndices y) :=
  whereEqOne_sorted y 0

theorem severeIndices_length (y : List Int) :
    (severeIndices y).length = y.countP (fun a => a == 1) :=
  whereEqOne_length y 0

theorem severeIndices_eq_nil_iff (y : List Int) :
    severeIndices y = [] ↔ (1 : Int) ∉ y :=
  whereEqOne_eq_nil_iff y 0

theorem find_severe_samples_ok (y : List Int) (n : Nat) (h : (1 : Int) ∈ y) :
    find_severe_samples y n = Except.ok ((severeIndices y).take n) := by
  have hne : ¬(severeIndices y).length = 0 := by
    rw [List.length_eq_zero, severeIndices_eq_nil_iff]
    exact fun hn => hn h
  simp [find_severe_samples, hne]

theorem find_severe_samples_ok_inv (y : List Int) (n : Nat) (l : List Nat)
    (h : find_severe_samples y n = Except.ok l) :
    l = (severeIndices y).take n := by
  by_cases hc : (severeIndices y).length = 0
  · simp [find_severe_samples, hc] at h
  · simp [find_severe_samples, hc] at h
    exact h.symm

/-! ### Claim theorems -/

/-- Claim C1: for every label collection with zero occurrences of the value
1, `find_severe_samples` fails with the no-positive-samples `ValueError` and
returns no partial result (no index list is produced). -/
theorem find_severe_samples_error_of_no_positive (y : List Int)
    (h : y.countP (fun a => a == 1) = 0) (n : Nat) :
    find_severe_samples y n = Except.error (PyError.valueError noSevereMsg) := by
  have hlen : (severeIndices y).length = 0 := by
    rw [severeIndices_length, h]
  simp [find_severe_samples, hlen]

theorem find_severe_samples_error_of_no_positive_witness :
    List.countP (fun a => a == 1) [0, 0, 0] = 0 ∧
    find_severe_samples [0, 0, 0] 5 =
      Except.error (PyError.valueError noSevereMsg) :=
  ⟨by decide, find_severe_samples_error_of_no_positive [0, 0, 0] (by decide) 5⟩

/-- Claim C2: for every label collection containing at least one value 1 and
every requested count `n`, `find_severe_samples` succeeds with a list of
indices whose labels are all 1, in strictly ascending original order, of
length `min n (number of positives)`, and consisting of the first such
indices: every positive index left out is larger than every returned one. -/
theorem find_severe_samples_spec (y : List Int) (n : Nat)
    (h : (1 : Int) ∈ y) :
    ∃ l, find_severe_samples y n = Except.ok l ∧
      (∀ i ∈ l, y.get? i = some 1) ∧
      List.Sorted (· < ·) l ∧
      l.length = min n (y.countP (fun a => a == 1)) ∧
      ∀ j, y.get? j = some 1 → j ∉ l → ∀ i ∈ l, i < j := by
  refine ⟨(severeIndices y).take n, find_severe_samples_ok y n h, ?_, ?_, ?_, ?_⟩
  · intro i hi
    exact (mem_severeIndices y i).1 (List.mem_of_mem_take hi)
  · exact List.Pairwise.sublist (List.take_sublist n _) (severeIndices_sorted y)
  · rw [List.length_take, severeIndices_length]
  · intro j hj hnot i hi
    have hjS : j ∈ severeIndices y := (mem_severeIndices y j).2 hj
    have hsplit := List.take_append_drop n (severeIndices y)
    have hjdrop : j ∈ (severeIndices y).drop n := by
      rw [← hsplit] at hjS
      rcases List.mem_append.1 hjS with h1 | h1
      · exact absurd h1 hnot
      · exact h1
    have hpair : List.Pairwise (· < ·)
        ((severeIndices y).take n ++ (severeIndices y).drop n) := by
      rw [hsplit]
      exact severeIndices_sorted y
    exact (List.pairwise_append.1 hpair).2.2 i hi j hjdrop

theorem find_severe_samples_spec_witness :
    (1 : Int) ∈ [0, 1, 1] ∧
    ∃ l, find_severe_samples [0, 1, 1] 1 = Except.ok l ∧
      (∀ i ∈ l, ([0, 1, 1] : List Int).get? i = some 1) ∧
      List.Sorted (· < ·) l ∧
      l.length = min 1 (List.countP (fun a => a == 1) [0, 1, 1]) ∧
      ∀ j, ([0, 1, 1] : List Int).get? j = some 1 → j ∉ l → ∀ i ∈ l, i < j :=
  ⟨by decide, find_severe_samples_spec [0, 1, 1] 1 (by decide)⟩

/-- Claim C9: every index returned by `find_severe_samples` is in bounds for
the label collection, and hence for any image collection of equal length, so
`x_test[i]` and `y_test[i]` in `main` are in-bounds accesses. -/
theorem find_severe_samples_in_bounds (y : List Int) (n : Nat) (l : List Nat)
    (h : find_severe_samples y n = Except.ok l) :
    ∀ i ∈ l, i < y.length ∧
      ∀ x : List Image, x.length = y.length → i < x.length := by
  intro i hi
  rw [find_severe_samples_ok_inv y n l h] at hi
  have hmem : y.get? i = some 1 :=
    (mem_severeIndices y i).1 (List.mem_of_mem_take hi)
  have hlt : i < y.length := by
    rcases List.get?_eq_some.1 hmem with ⟨hl, -⟩
    exact hl
  exact ⟨hlt, fun x hx => hx ▸ hlt⟩

theorem find_severe_samples_in_bounds_witness :
    find_severe_samples [1] 5 = Except.ok [0] ∧
    0 < List.length [(1 : Int)] :=
  ⟨rfl, (find_severe_samples_in_bounds [1] 5 [0] rfl 0 (by decide)).1⟩

/-- Claim C10: the emptiness check precedes truncation: with a requested
count of 0, `find_severe_samples` returns the empty index list when a
positive label exists, yet still fails with the no-positive-samples error
when no label equals 1. -/
theorem find_severe_samples_check_before_truncation (y : List Int) :
    ((1 : Int) ∈ y → find_severe_samples y 0 = Except.ok []) ∧
    ((1 : Int) ∉ y → find_severe_samples y 0 =
      Except.error (PyError.valueError noSevereMsg)) := by
  constructor
  · intro h
    rw [find_severe_samples_ok y 0 h, List.take_zero]
  · intro h
    have hnil : severeIndices y = [] := (severeIndices_eq_nil_iff y).2 h
    simp [find_severe_samples, hnil]

theorem find_severe_samples_check_before_truncation_witness :
    find_severe_samples [0, 1] 0 = Except.ok [] ∧
    find_severe_samples [0, 0] 0 =
      Except.error (PyError.valueError noSevereMsg) :=
  ⟨(find_severe_samples_check_before_truncation [0, 1]).1 (by decide),
   (find_severe_samples_check_before_truncation [0, 0]).2 (by decide)⟩

/-- Claim C5: for every loaded label collection containing at least one
positive label, the selection step of `main` (`find_severe_samples(y, 1)`
followed by `severe_indices[0]`) selects exactly one sample, whose index is
the smallest index with label 1. -/
theorem main_selects_first_positive (y : List Int) (h : (1 : Int) ∈ y) :
    ∃ i, selectSampleIndex y = Except.ok i ∧
      find_severe_samples y 1 = Except.ok [i] ∧
      y.get? i = some 1 ∧
      ∀ j, j < i → y.get? j ≠ some 1 := by
  have hne : severeIndices y ≠ [] := by
    rw [Ne, severeIndices_eq_nil_iff]
    exact fun hn => hn h
  obtain ⟨i, t, hit⟩ := List.exists_cons_of_ne_nil hne
  have hfind : find_severe_samples y 1 = Except.ok [i] := by
    rw [find_severe_samples_ok y 1 h, hit]
    rfl
  refine ⟨i, ?_, hfind, ?_, ?_⟩
  · simp [selectSampleIndex, hfind]
  · exact (mem_severeIndices y i).1 (hit ▸ List.mem_cons_self i t)
  · intro j hj hmem
    have hjS : j ∈ severeIndices y := (mem_severeIndices y j).2 hmem
    rw [hit, List.mem_cons] at hjS
    rcases hjS with rfl | hjt
    · omega
    · have : i < j :=
        (List.sorted_cons.1 (hit ▸ severeIndices_sorted y)).1 j hjt
      omega

theorem main_selects_first_positive_witness :
    (1 : Int) ∈ [0, 1, 0, 1] ∧
    ∃ i, selectSampleIndex [0, 1, 0, 1] = Except.ok i ∧
      find_severe_samples [0, 1, 0, 1] 1 = Except.ok [i] ∧
      ([0, 1, 0, 1] : List Int).get? i = some 1 ∧
      ∀ j, j < i → ([0, 1, 0, 1] : List Int).get? j ≠ some 1 :=
  ⟨by decide, main_selects_first_positive [0, 1, 0, 1] (by decide)⟩

/-- Claim C3: the displayed confidence percentage is computed by rounding
the maximum probability to 2 decimal places first and scaling by 100
afterwards: it equals `round(p, 2) * 100` for `p` the maximum entry, with
`p = 0.873` displaying as 87 and `p = 0.996` as 100, and it differs from
the scale-then-round alternative `round(p * 100, 2)`. -/
theorem displayedConfidence_rounds_then_scales :
    (∀ prediction : List ℚ,
      displayedConfidence prediction = npRound (npMax prediction) 2 * 100) ∧
    displayedConfidence [127/1000, 873/1000] = 87 ∧
    displayedConfidence [4/1000, 996/1000] = 100 ∧
    scaleThenRound (npMax [127/1000, 873/1000]) = 873/10 ∧
    displayedConfidence [127/1000, 873/1000] ≠
      scaleThenRound (npMax [127/1000, 873/1000]) := by
  refine ⟨fun _ => rfl, ?_, ?_, ?_, ?_⟩ <;>
    norm_num [displayedConfidence, scaleThenRound, npMax, npRound,
      roundHalfEven]

/-- Claim C4: for a 2-entry classifier output vector summing to 1 with one
entry strictly larger, `np.argmax` — the predicted class computed by the
runner — is the position of the strictly larger entry. -/
theorem predicted_class_is_strict_argmax (p0 p1 : ℚ) (_hsum : p0 + p1 = 1) :
    (p1 < p0 → npArgmax [p0, p1] = 0) ∧ (p0 < p1 → npArgmax [p0, p1] = 1) := by
  constructor
  · intro hlt
    simp [npArgmax, npArgmaxAux, not_lt.2 hlt.le]
  · intro hlt
    simp [npArgmax, npArgmaxAux, hlt]

theorem predicted_class_is_strict_argmax_witness :
    (1 : ℚ) + 0 = 1 ∧ (0 : ℚ) < 1 ∧ npArgmax [1, 0] = 0 :=
  ⟨add_zero 1, zero_lt_one,
   (predicted_class_is_strict_argmax 1 0 (add_zero 1)).1 zero_lt_one⟩

theorem get?_zero_set_zero {α : Type} (l : List α) (a : α) (h : l ≠ []) :
    (l.set 0 a).get? 0 = some a := by
  cases l with
  | nil => exact absurd rfl h
  | cons b t => rfl

/-- Claim C8: every dataset produced by `create_mock_data` — whatever the
random draws — has 100 images and 100 labels (equal lengths), every label
in {0, 1}, and label 1 at index 0, so a positive sample always exists. -/
theorem create_mock_data_invariant (randImage : Nat → Image)
    (randLabel : Nat → Fin 2) :
    (create_mock_data randImage randLabel).1.length = 100 ∧
    (create_mock_data randImage randLabel).2.length = 100 ∧
    (create_mock_data randImage randLabel).1.length =
      (create_mock_data randImage randLabel).2.length ∧
    (∀ v ∈ (create_mock_data randImage randLabel).2, v = 0 ∨ v = 1) ∧
    (create_mock_data randImage randLabel).2.get? 0 = some 1 := by
  refine ⟨by simp [create_mock_data], by simp [create_mock_data],
    by simp [create_mock_data], ?_, ?_⟩
  · intro v hv
    simp only [create_mock_data] at hv
    rcases List.mem_or_eq_of_mem_set hv with hv' | rfl
    · rcases List.mem_map.1 hv' with ⟨i, -, rfl⟩
      have hlt : (randLabel i : Nat) < 2 := (randLabel i).isLt
      omega
    · right; rfl
  · simp only [create_mock_data]
    apply get?_zero_set_zero
    simp

theorem create_mock_data_invariant_witness :
    (1 : Int) ∈ (create_mock_data (fun _ => 0) (fun _ => 0)).2 ∧
    ((1 : Int) = 0 ∨ (1 : Int) = 1) :=
  ⟨by decide,
   (create_mock_data_invariant (fun _ => 0) (fun _ => 0)).2.2.2.1 1 (by decide)⟩

theorem generate_lime_explanation_writes (env : Env) (prediction : List ℚ)
    (p : String) (w : List String)
    (h : generate_lime_explanation env prediction p = Except.ok w) :
    w = [p] := by
  unfold generate_lime_explanation at h
  split at h
  · exact absurd h (by simp)
  · split at h
    · exact absurd h (by simp)
    · simpa using h.symm

theorem runMain_shape (env : Env) :
    (∃ e, (runMain env).1 = Except.error e ∧ (runMain env).2 = []) ∨
    ((runMain env).1 = Except.ok () ∧ (runMain env).2 = [limeOutputPath]) := by
  unfold runMain
  repeat' split
  all_goals
    first
    | (left; exact ⟨_, rfl, rfl⟩)
    | (rename_i h
       right
       exact ⟨rfl, generate_lime_explanation_writes _ _ _ _ h⟩)

/-- Claim C7: on every run of `main` in which any step of the `try` body
fails — missing artifact, no positive sample, classifier or explainer
failure — the output figure is not written; the figure is persisted exactly
when all steps succeed. -/
theorem figure_written_only_on_success (env : Env) :
    (∀ e, (runMain env).1 = Except.error e →
      limeOutputPath ∉ (runMain env).2) ∧
    ((runMain env).1 = Except.ok () → (runMain env).2 = [limeOutputPath]) := by
  rcases runMain_shape env with ⟨e, he, hw⟩ | ⟨hok, hw⟩
  · refine ⟨fun e' _ => ?_, fun hok => ?_⟩
    · rw [hw]
      simp
    · rw [he] at hok
      cases hok
  · refine ⟨fun e' he' => ?_, fun _ => hw⟩
    rw [hok] at he'
    cases he'

theorem figure_written_only_on_success_witness :
    (runMain envMissingModel).1 =
      Except.error (PyError.fileNotFound modelPath) ∧
    limeOutputPath ∉ (runMain envMissingModel).2 ∧
    (runMain envGood).1 = Except.ok () ∧
    (runMain envGood).2 = [limeOutputPath] :=
  ⟨rfl,
   (figure_written_only_on_success envMissingModel).1
     (PyError.fileNotFound modelPath) rfl,
   rfl,
   (figure_written_only_on_success envGood).2 rfl⟩

/-- Claim C6: every exception raised inside the `try` body of `main` is caught:
`FileNotFoundError` and `ValueError` are reported with their dedicated
human-readable messages, any other exception via the generic handler, and
in no case does `main` propagate an exception — every run ends normally. -/
theorem main_handles_all_errors (env : Env) :
    (∀ e, (mainRun env).1 ≠ RunOutcome.propagated e) ∧
    (∀ m, (runMain env).1 = Except.error (PyError.fileNotFound m) →
      (mainRun env).1 = RunOutcome.handled (fnfHeader ++ m)) ∧
    (∀ m, (runMain env).1 = Except.error (PyError.valueError m) →
      (mainRun env).1 = RunOutcome.handled (errHeader ++ m)) ∧
    (∀ m, (runMain env).1 = Except.error (PyError.other m) →
      (mainRun env).1 = RunOutcome.handled (unexpectedHeader ++ m)) ∧
    ((runMain env).1 = Except.ok () → (mainRun env).1 = RunOutcome.success) := by
  rcases hrw : runMain env with ⟨res, w⟩
  refine ⟨?_, ?_, ?_, ?_, ?_⟩
  · intro e
    rcases res with err | val
    · rcases err with m | m | m <;> simp [mainRun, hrw]
    · simp [mainRun, hrw]
  · intro m hm
    replace hm : res = Except.error (PyError.fileNotFound m) := hm
    subst hm
    simp [mainRun, hrw]
  · intro m hm
    replace hm : res = Except.error (PyError.valueError m) := hm
    subst hm
    simp [mainRun, hrw]
  · intro m hm
    replace hm : res = Except.error (PyError.other m) := hm
    subst hm
    simp [mainRun, hrw]
  · intro hm
    replace hm : res = Except.ok () := hm
    subst hm
    simp [mainRun, hrw]

theorem main_handles_all_errors_witness :
    (runMain envMissingModel).1 =
      Except.error (PyError.fileNotFound modelPath) ∧
    (mainRun envMissingModel).1 =
      RunOutcome.handled (fnfHeader ++ modelPath) :=
  ⟨rfl, (main_handles_all_errors envMissingModel).2.1 modelPath rfl⟩
